import Mathlib

/-
Shallow embedding of the ESP32 ANC core:
  src/server/config.py      (configuration constants)
  src/server/anc_system.py  (class AdaptiveANC, method process_chunk)
  src/server/anc_server.py  (on_message: wire codec and stream shim)

Modelling conventions.
* NumPy float arithmetic is modelled by exact arithmetic: the wire codec over
  the rationals (every float value is a rational), the adaptive filter over the
  reals, because the soft limiter is Real.tanh.
* NumPy operations that raise (shape mismatch in np.dot, broadcasting failure
  in elementwise arithmetic, slice-assignment size mismatch) are modelled as
  Option/Except failures; NumPy 1-D length-1 broadcasting is modelled.
* np.mean of an empty array returns NaN (with a warning) in NumPy; this model
  returns 0 (division by zero in a field).  No theorem below depends on the
  value at an empty array: an empty chunk has model mean-absolute-value 0 and
  is gated out, and the claims only concern non-empty chunks.
-/

namespace ESP32

/- ------------------------------------------------------------------
   Wire codec, from anc_server.py on_message with the config.py defaults
   BIT_DEPTH = 16, ENDIANNESS = 'little', NORMALIZE = True:
     decode:  np.frombuffer(raw_bytes, dtype=np.int16).astype(np.float32)
              / MAX_AMPLITUDE
     encode:  (chunk * MAX_AMPLITUDE).astype(np.int16).tobytes()
   Bytes are modelled as natural numbers below 256.
   ------------------------------------------------------------------ -/

/-- MAX_AMPLITUDE = 32767 (config.py). -/
def MAX_AMPLITUDE : ℤ := 32767

/-- Two's-complement value of two little-endian bytes (np.int16). -/
def int16OfBytes (b0 b1 : ℕ) : ℤ :=
  let u : ℕ := b0 + 256 * b1
  if u < 32768 then (u : ℤ) else (u : ℤ) - 65536

/-- Little-endian bytes of an int16 value; out-of-range inputs wrap to
16 bits first, as a C-style narrowing conversion does. -/
def bytesOfInt16 (v : ℤ) : List ℕ :=
  let u : ℕ := (v % 65536).toNat
  [u % 256, u / 256]

/-- np.frombuffer(raw, dtype=np.int16): fails (ValueError) unless the byte
count is a multiple of the 2-byte item size. -/
def bytesToInt16s : List ℕ → Option (List ℤ)
  | [] => some []
  | b0 :: b1 :: rest => (bytesToInt16s rest).map (fun zs => int16OfBytes b0 b1 :: zs)
  | [_] => none

/-- decode: deserialise int16 little-endian samples and divide each by
MAX_AMPLITUDE (NORMALIZE = True branch of on_message). -/
def decode (b : List ℕ) : Option (List ℚ) :=
  (bytesToInt16s b).map (List.map (fun (v : ℤ) => (v : ℚ) / (MAX_AMPLITUDE : ℚ)))

/-- C-style float-to-int conversion (np .astype(np.int16) semantics before the
16-bit wrap): truncation toward zero. -/
def truncToZero (q : ℚ) : ℤ :=
  if 0 ≤ q then ⌊q⌋ else -⌊-q⌋

/-- Wrap an integer into the int16 range, as the narrowing conversion does. -/
def wrap16 (n : ℤ) : ℤ :=
  ((n + 32768) % 65536) - 32768

/-- encode: multiply by MAX_AMPLITUDE, convert to int16, serialise
little-endian (NORMALIZE = True publish branch of on_message). -/
def encode (v : List ℚ) : List ℕ :=
  (v.map (fun q => wrap16 (truncToZero (q * (MAX_AMPLITUDE : ℚ))))).flatMap bytesOfInt16

/- ------------------------------------------------------------------
   Adaptive filter, from anc_system.py class AdaptiveANC.
   Sample vectors are lists of reals.
   ------------------------------------------------------------------ -/

/-- A 1-D float array. -/
abbrev Vec := List ℝ

/-- Instance constants fixed in AdaptiveANC.__init__. -/
noncomputable def signal_threshold : ℝ := 1 / 10

/-- max_adaptation_rate = 0.1 (AdaptiveANC.__init__). -/
noncomputable def max_adaptation_rate : ℝ := 1 / 10

/-- leakage = 0.9999 (process_chunk local). -/
noncomputable def leakage : ℝ := 9999 / 10000

/-- max_update = 0.1 (process_chunk local). -/
noncomputable def max_update : ℝ := 1 / 10

/-- max_weight = 2.0 (process_chunk local). -/
noncomputable def max_weight : ℝ := 2

/-- window_size = 100 (AdaptiveANC.__init__). -/
def window_size : ℕ := 100

/-- The constants the filter reads from config.py: FILTER_LENGTH,
LATENCY_SAMPLES and MU. -/
structure Config where
  filter_length : ℕ
  latency_samples : ℕ
  mu : ℝ

/-- The config.py values: FILTER_LENGTH = 2048, LATENCY_SAMPLES = 0,
MU = 0.0005. -/
noncomputable def defaultConfig : Config :=
  { filter_length := 2048, latency_samples := 0, mu := 5 / 10000 }

/-- The mutable state of an AdaptiveANC instance that process_chunk touches
(the unused last_chunk_time field is omitted). -/
structure ANCState where
  w : Vec
  x_buffer : Vec
  error_history : List ℝ
  packet_count : ℕ

/-- AdaptiveANC.__init__: zero weights of length FILTER_LENGTH, zero delay
line of length FILTER_LENGTH + LATENCY_SAMPLES, empty history. -/
def initState (cfg : Config) : ANCState :=
  { w := List.replicate cfg.filter_length 0
    x_buffer := List.replicate (cfg.filter_length + cfg.latency_samples) 0
    error_history := []
    packet_count := 0 }

/-- np.mean (empty arrays: see the header note). -/
noncomputable def npMean (v : Vec) : ℝ := v.sum / v.length

/-- np.dot on 1-D arrays: raises ValueError unless the lengths agree. -/
noncomputable def npDot (a b : Vec) : Option ℝ :=
  if a.length = b.length then some (List.zipWith (fun s t => s * t) a b).sum else none

/-- Elementwise binary arithmetic on two 1-D arrays with NumPy broadcasting:
equal lengths, or one operand of length 1; otherwise ValueError. -/
noncomputable def npBinop (f : ℝ → ℝ → ℝ) (a b : Vec) : Option Vec :=
  if a.length = b.length then some (List.zipWith f a b)
  else if a.length = 1 then some (b.map (fun t => f a.headI t))
  else if b.length = 1 then some (a.map (fun t => f t b.headI))
  else none

/-- np.roll(a, -n): cyclic left shift by n. -/
def npRollLeft {α : Type} (a : List α) (n : ℕ) : List α :=
  a.drop (n % a.length) ++ a.take (n % a.length)

/-- Slice assignment a[-n:] = x with n = len(x): the target slice is the whole
list when n = 0 and the last min(n, len(a)) entries otherwise; NumPy raises
unless the target slice length equals len(x). -/
def setTail {α : Type} (a x : List α) : Option (List α) :=
  let tlen := if x.length = 0 then a.length else min x.length a.length
  if tlen = x.length then some (a.take (a.length - x.length) ++ x) else none

/-- Python slice a[:-k]; note a[:-0] is a[:0] = []. -/
def sliceDropLast {α : Type} (a : List α) (k : ℕ) : List α :=
  if k = 0 then [] else a.take (a.length - k)

/-- Python slice a[-m:]; a[-0:] is the whole list. -/
def sliceTakeLast {α : Type} (a : List α) (m : ℕ) : List α :=
  if m = 0 then a else a.drop (a.length - m)

/-- x_delayed = self.x_buffer[:-LATENCY_SAMPLES][-self.filter_length:]
(anc_system.py line 43). -/
def xDelayed (cfg : Config) (buf : Vec) : Vec :=
  sliceTakeLast (sliceDropLast buf cfg.latency_samples) cfg.filter_length

/-- np.clip against scalar bounds: np.minimum(hi, np.maximum(lo, t)). -/
noncomputable def clip1 (lo hi t : ℝ) : ℝ := min (max t lo) hi

/-- np.max(np.abs(e)) for the non-empty arrays on which it is evaluated
(folding from 0 is exact because every |t| is nonnegative). -/
noncomputable def npMaxAbs (v : Vec) : ℝ := (v.map (fun t => |t|)).foldr max 0

/-- The signal-level gate of process_chunk (line 31):
np.abs(x_ref).mean() < signal_threshold or np.abs(d_error).mean() < threshold. -/
noncomputable def gatedInput (x_ref d_error : Vec) : Prop :=
  npMean (x_ref.map (fun t => |t|)) < signal_threshold ∨
    npMean (d_error.map (fun t => |t|)) < signal_threshold

noncomputable instance (x d : Vec) : Decidable (gatedInput x d) := by
  unfold gatedInput; infer_instance

/-- The error_history bookkeeping after an append (lines 73-74): if the length
exceeds window_size * 2, keep the most recent window_size entries. -/
def truncHistory (h : List ℝ) : List ℝ :=
  if window_size * 2 < h.length then sliceTakeLast h window_size else h

/-- The non-gated remainder of process_chunk (anc_system.py lines 34-79).
The returned state reflects exactly the mutations of self that happened before
an exception: self.x_buffer is reassigned before any operation that can raise,
and self.w only on the success path (where the in-place np.clip follows the
assignment with no failing operation in between). -/
noncomputable def processActive (cfg : Config) (s : ANCState) (x_ref d_error : Vec) :
    ANCState × Except Unit Vec :=
  -- x_ref = x_ref - np.mean(x_ref); d_error = d_error - np.mean(d_error)
  let x := x_ref.map (fun t => t - npMean x_ref)
  let d := d_error.map (fun t => t - npMean d_error)
  -- self.x_buffer = np.roll(self.x_buffer, -len(x_ref))
  let buf1 := npRollLeft s.x_buffer x.length
  -- self.x_buffer[-len(x_ref):] = x_ref
  match setTail buf1 x with
  | none => ({ s with x_buffer := buf1 }, .error ())
  | some buf2 =>
    let s1 := { s with x_buffer := buf2 }
    let xd := xDelayed cfg buf2
    -- signal_power = np.mean(x_delayed ** 2)
    let signal_power := npMean (xd.map (fun t => t ^ 2))
    -- mu_adjusted = min(self.mu / (signal_power + 1e-6), self.max_adaptation_rate)
    let mu_adjusted := min (cfg.mu / (signal_power + 1 / 1000000)) max_adaptation_rate
    -- y = np.dot(self.w, x_delayed)
    match npDot s.w xd with
    | none => (s1, .error ())
    | some y =>
      -- e = d_error - y
      let e := d.map (fun t => t - y)
      -- weight_update = 2 * mu_adjusted * e * x_delayed
      match npBinop (fun s t => s * t) (e.map (fun t => 2 * mu_adjusted * t)) xd with
      | none => (s1, .error ())
      | some wu =>
        -- weight_update = np.clip(weight_update, -max_update, max_update)
        let wu2 := wu.map (clip1 (-max_update) max_update)
        -- self.w = leakage * self.w + weight_update
        match npBinop (fun s t => s + t) (s.w.map (fun t => leakage * t)) wu2 with
        | none => (s1, .error ())
        | some wraw =>
          -- np.clip(self.w, -max_weight, max_weight, out=self.w)
          let s2 := { s1 with w := wraw.map (clip1 (-max_weight) max_weight) }
          -- if np.max(np.abs(e)) > 1.0: e = e / np.max(np.abs(e))
          let m := npMaxAbs e
          let e2 := if 1 < m then e.map (fun t => t / m) else e
          -- e = np.tanh(e)
          let out := e2.map Real.tanh
          -- self.error_history.append(np.mean(e**2)); truncate; packet_count += 1
          let hist := truncHistory (s.error_history ++ [npMean (out.map (fun t => t ^ 2))])
          ({ s2 with error_history := hist, packet_count := s2.packet_count + 1 }, .ok out)

/-- AdaptiveANC.process_chunk (anc_system.py lines 29-79). -/
noncomputable def processChunk (cfg : Config) (s : ANCState) (x_ref d_error : Vec) :
    ANCState × Except Unit Vec :=
  if gatedInput x_ref d_error then
    -- return np.zeros_like(d_error)
    (s, .ok (List.replicate d_error.length 0))
  else
    processActive cfg s x_ref d_error

/-- A sequence of process_chunk calls, tracking the state. -/
noncomputable def runChunks (cfg : Config) : ANCState → List (Vec × Vec) → ANCState
  | s, [] => s
  | s, (x, d) :: rest => runChunks cfg (processChunk cfg s x d).1 rest

/-- The number of calls in a sequence that take the non-gated path and run it
to completion (used to state what packet_count counts). -/
noncomputable def activeCompletions (cfg : Config) : ANCState → List (Vec × Vec) → ℕ
  | _, [] => 0
  | s, (x, d) :: rest =>
    (if gatedInput x d then 0
     else match (processChunk cfg s x d).2 with
          | .ok _ => 1
          | .error _ => 0)
      + activeCompletions cfg (processChunk cfg s x d).1 rest

/- ------------------------------------------------------------------
   Helper lemmas
   ------------------------------------------------------------------ -/

lemma xDelayed_of_latency_eq_zero (cfg : Config) (buf : Vec)
    (h : cfg.latency_samples = 0) : xDelayed cfg buf = [] := by
  unfold xDelayed sliceDropLast sliceTakeLast
  rw [h]
  simp

lemma tanh_mem_unit (x : ℝ) : -1 < Real.tanh x ∧ Real.tanh x < 1 := by
  have hc := Real.cosh_pos x
  have h1 : Real.sinh x < Real.cosh x := Real.sinh_lt_cosh x
  have h2 : -Real.cosh x < Real.sinh x := by
    have h3 : Real.sinh (-x) < Real.cosh (-x) := Real.sinh_lt_cosh (-x)
    rw [Real.sinh_neg, Real.cosh_neg] at h3
    linarith
  rw [Real.tanh_eq_sinh_div_cosh]
  constructor
  · rw [lt_div_iff₀ hc]; linarith
  · rw [div_lt_one hc]; exact h1

lemma clip1_mem (lo hi t : ℝ) (h : lo ≤ hi) :
    lo ≤ clip1 lo hi t ∧ clip1 lo hi t ≤ hi :=
  ⟨le_min (le_max_right _ _) h, min_le_right _ _⟩

lemma npMean_replicate (n : ℕ) (c : ℝ) (hn : n ≠ 0) :
    npMean (List.replicate n c) = c := by
  unfold npMean
  rw [List.sum_replicate, List.length_replicate, nsmul_eq_mul]
  exact mul_div_cancel_left₀ c (by exact_mod_cast hn)

/- ------------------------------------------------------------------
   Claim theorems
   ------------------------------------------------------------------ -/

/-- C3: whenever the mean absolute value of x_ref or of d_error is strictly
below signal_threshold = 0.1 the call short-circuits: it returns the zero
vector of the length of d_error and leaves the whole state (w, x_buffer,
error_history, packet_count) exactly as it was. -/
theorem gated_call_returns_zeros_and_preserves_state
    (cfg : Config) (s : ANCState) (x_ref d_error : Vec)
    (h : gatedInput x_ref d_error) :
    processChunk cfg s x_ref d_error = (s, .ok (List.replicate d_error.length 0)) := by
  unfold processChunk
  rw [if_pos h]

/-- Witness for C3 at a concrete gated input. -/
theorem gated_call_returns_zeros_and_preserves_state_witness :
    gatedInput [(1 : ℝ)/100] [(5 : ℝ), 5] ∧
    processChunk defaultConfig (initState defaultConfig) [(1 : ℝ)/100] [(5 : ℝ), 5]
      = (initState defaultConfig, .ok (List.replicate 2 0)) := by
  have hg : gatedInput [(1 : ℝ)/100] [(5 : ℝ), 5] := by
    have h1 : |(1 : ℝ)/100| = 1/100 := abs_of_nonneg (by norm_num)
    unfold gatedInput
    left
    norm_num [npMean, h1, signal_threshold]
  exact ⟨hg, gated_call_returns_zeros_and_preserves_state defaultConfig
    (initState defaultConfig) _ _ hg⟩

/-- C2 (code bug): with the default configuration LATENCY_SAMPLES = 0, the
slice x_buffer[:-LATENCY_SAMPLES] is x_buffer[:0] = [], so x_delayed is the
empty vector for every buffer, never the last FILTER_LENGTH samples claimed
(its length is 0, not FILTER_LENGTH = 2048). -/
theorem xDelayed_empty_at_default_config (buf : Vec) :
    xDelayed defaultConfig buf = [] ∧
      (xDelayed defaultConfig buf).length ≠ defaultConfig.filter_length := by
  have h : xDelayed defaultConfig buf = [] :=
    xDelayed_of_latency_eq_zero defaultConfig buf rfl
  refine ⟨h, ?_⟩
  rw [h]
  simp [defaultConfig]

/-- C10: decode maps the int16 sample v to exactly v / 32767; the minimum
sample, wire bytes 0x00 0x80, decodes to -32768/32767 which is strictly below
-1, so decoded vectors need not lie in the interval from -1 to 1. -/
theorem decode_min_sample_below_neg_one :
    decode [0, 128] = some [(-32768 : ℚ) / 32767] ∧ (-32768 : ℚ) / 32767 < -1 := by
  constructor
  · norm_num [decode, bytesToInt16s, int16OfBytes, MAX_AMPLITUDE]
  · rw [div_lt_iff₀ (by norm_num)]
    norm_num

/-- C1 (code bug): with the default configuration (LATENCY_SAMPLES = 0), every
call that passes the signal gate raises instead of returning a vector: the
slice x_buffer[:-0] is empty, so x_delayed is empty and np.dot(w, x_delayed)
raises ValueError (the weight vector is non-empty). -/
theorem processChunk_default_active_raises (s : ANCState) (x_ref d_error : Vec)
    (hw : 0 < s.w.length) (h : ¬ gatedInput x_ref d_error) :
    (processChunk defaultConfig s x_ref d_error).2 = .error () := by
  unfold processChunk
  rw [if_neg h]
  unfold processActive
  dsimp only
  split
  · rfl
  next buf2 heq =>
    rw [xDelayed_of_latency_eq_zero defaultConfig buf2 rfl]
    have hnd : npDot s.w [] = none := by
      unfold npDot
      rw [if_neg]
      simpa using Nat.pos_iff_ne_zero.mp hw
    rw [hnd]

/-- Witness for C1 at the default configuration on a concrete active input. -/
theorem processChunk_default_active_raises_witness :
    0 < (initState defaultConfig).w.length ∧
    ¬ gatedInput (List.replicate 256 ((1 : ℝ)/2)) (List.replicate 256 ((1 : ℝ)/2)) ∧
    (processChunk defaultConfig (initState defaultConfig)
        (List.replicate 256 ((1 : ℝ)/2)) (List.replicate 256 ((1 : ℝ)/2))).2
      = .error () := by
  have hw : 0 < (initState defaultConfig).w.length := by
    rw [show (initState defaultConfig).w = List.replicate defaultConfig.filter_length 0 from rfl,
      List.length_replicate]
    norm_num [defaultConfig]
  have habs : |(1 : ℝ)/2| = 1/2 := abs_of_nonneg (by norm_num)
  have hmean : npMean ((List.replicate 256 ((1 : ℝ)/2)).map (fun t => |t|)) = 1/2 := by
    rw [List.map_replicate, habs, npMean_replicate 256 (1/2) (by norm_num)]
  have hg : ¬ gatedInput (List.replicate 256 ((1 : ℝ)/2)) (List.replicate 256 ((1 : ℝ)/2)) := by
    unfold gatedInput
    rw [hmean]
    push_neg
    constructor <;> norm_num [signal_threshold]
  exact ⟨hw, hg, processChunk_default_active_raises (initState defaultConfig) _ _ hw hg⟩

/-- C4: whenever process_chunk returns a vector (gated path: zeros; active
path: peak rescaling followed by elementwise tanh), every returned sample lies
strictly inside the open interval from -1 to 1. -/
theorem output_samples_strictly_inside_unit (cfg : Config) (s : ANCState)
    (x_ref d_error out : Vec)
    (h : (processChunk cfg s x_ref d_error).2 = .ok out) :
    ∀ c ∈ out, -1 < c ∧ c < 1 := by
  unfold processChunk at h
  split at h
  · -- gated: a vector of zeros comes back
    simp only at h
    rw [Except.ok.injEq] at h
    subst h
    intro c hc
    rw [List.eq_of_mem_replicate hc]
    norm_num
  · unfold processActive at h
    dsimp only at h
    split at h
    · simp at h
    · split at h
      · simp at h
      · split at h
        · simp at h
        · split at h
          · simp at h
          · -- success path: the output is an elementwise tanh image
            simp only at h
            rw [Except.ok.injEq] at h
            subst h
            intro c hc
            rw [List.mem_map] at hc
            obtain ⟨t, -, rfl⟩ := hc
            exact tanh_mem_unit t

/-- Witness for C4 at a concrete call (the returned sample is 0). -/
theorem output_samples_strictly_inside_unit_witness :
    (processChunk defaultConfig (initState defaultConfig) [(0 : ℝ)] [(0 : ℝ)]).2
        = .ok [(0 : ℝ)] ∧
    (0 : ℝ) ∈ [(0 : ℝ)] ∧ (-1 < (0 : ℝ) ∧ (0 : ℝ) < 1) := by
  have hg : gatedInput [(0 : ℝ)] [(0 : ℝ)] := by
    unfold gatedInput
    left
    norm_num [npMean, signal_threshold]
  have h : (processChunk defaultConfig (initState defaultConfig) [(0 : ℝ)] [(0 : ℝ)]).2
      = .ok [(0 : ℝ)] := by
    unfold processChunk
    rw [if_pos hg]
    rfl
  have hm : (0 : ℝ) ∈ [(0 : ℝ)] := by simp
  exact ⟨h, hm,
    output_samples_strictly_inside_unit defaultConfig (initState defaultConfig) _ _ _ h 0 hm⟩

lemma processChunk_w_elements (cfg : Config) (s : ANCState) (x d : Vec) :
    ∀ c ∈ (processChunk cfg s x d).1.w, c ∈ s.w ∨ (-2 ≤ c ∧ c ≤ 2) := by
  unfold processChunk
  split
  · exact fun c hc => Or.inl hc
  · unfold processActive
    dsimp only
    split
    · exact fun c hc => Or.inl hc
    · split
      · exact fun c hc => Or.inl hc
      · split
        · exact fun c hc => Or.inl hc
        · split
          · exact fun c hc => Or.inl hc
          · -- success path: w was reassigned and then clipped elementwise
            intro c hc
            right
            simp only [List.mem_map] at hc
            obtain ⟨t, -, rfl⟩ := hc
            have h := clip1_mem (-max_weight) max_weight t (by norm_num [max_weight])
            rw [show max_weight = (2 : ℝ) from rfl] at h ⊢
            exact h

/-- C5: starting from the all-zero initial weights, after any sequence of
process_chunk calls (gated, raising, or completing) every element of w lies in
the closed interval from -2 to 2. -/
theorem w_bounded_after_every_chunk (cfg : Config) (inputs : List (Vec × Vec)) :
    ∀ c ∈ (runChunks cfg (initState cfg) inputs).w, -2 ≤ c ∧ c ≤ 2 := by
  suffices h : ∀ (s : ANCState), (∀ c ∈ s.w, -2 ≤ c ∧ c ≤ 2) →
      ∀ c ∈ (runChunks cfg s inputs).w, -2 ≤ c ∧ c ≤ 2 by
    apply h
    intro c hc
    rw [show (initState cfg).w = List.replicate cfg.filter_length 0 from rfl] at hc
    rw [List.eq_of_mem_replicate hc]
    norm_num
  induction inputs with
  | nil => intro s hs; simpa [runChunks] using hs
  | cons p rest ih =>
    intro s hs
    rcases p with ⟨x, d⟩
    simp only [runChunks]
    apply ih
    intro c hc
    rcases processChunk_w_elements cfg s x d c hc with h | h
    · exact hs c h
    · exact h

/-- Witness for C5: one gated call from the initial state; 0 is an element of
the resulting weight vector. -/
theorem w_bounded_after_every_chunk_witness :
    (0 : ℝ) ∈ (runChunks defaultConfig (initState defaultConfig)
        [([(0 : ℝ)], [(0 : ℝ)])]).w ∧ (-2 ≤ (0 : ℝ) ∧ (0 : ℝ) ≤ 2) := by
  have hg : gatedInput [(0 : ℝ)] [(0 : ℝ)] := by
    unfold gatedInput
    left
    norm_num [npMean, signal_threshold]
  have hrun : runChunks defaultConfig (initState defaultConfig) [([(0 : ℝ)], [(0 : ℝ)])]
      = initState defaultConfig := by
    simp only [runChunks]
    unfold processChunk
    rw [if_pos hg]
  have hmem : (0 : ℝ) ∈ (runChunks defaultConfig (initState defaultConfig)
      [([(0 : ℝ)], [(0 : ℝ)])]).w := by
    rw [hrun]
    rw [show (initState defaultConfig).w = List.replicate defaultConfig.filter_length 0 from rfl]
    exact List.mem_replicate.mpr ⟨by norm_num [defaultConfig], rfl⟩
  exact ⟨hmem, w_bounded_after_every_chunk defaultConfig _ 0 hmem⟩

lemma packet_count_step (cfg : Config) (s : ANCState) (x d : Vec) :
    (processChunk cfg s x d).1.packet_count =
      s.packet_count +
        (if gatedInput x d then 0
         else match (processChunk cfg s x d).2 with
              | .ok _ => 1
              | .error _ => 0) := by
  by_cases hg : gatedInput x d
  · simp [processChunk, if_pos hg]
  · simp only [if_neg hg]
    unfold processChunk
    simp only [if_neg hg]
    unfold processActive
    dsimp only
    split
    · rfl
    · split
      · rfl
      · split
        · rfl
        · split
          · rfl
          · rfl

/-- C9: packet_count counts exactly the calls that take the non-gated path and
run it to completion; gated calls (and calls that raise) leave it unchanged. -/
theorem packet_count_counts_completed_active_calls (cfg : Config) (s : ANCState)
    (inputs : List (Vec × Vec)) :
    (runChunks cfg s inputs).packet_count = s.packet_count + activeCompletions cfg s inputs := by
  induction inputs generalizing s with
  | nil => simp [runChunks, activeCompletions]
  | cons p rest ih =>
    rcases p with ⟨x, d⟩
    simp only [runChunks, activeCompletions]
    rw [ih, packet_count_step]
    omega

lemma int16OfBytes_range (b0 b1 : ℕ) (h0 : b0 < 256) (h1 : b1 < 256) :
    -32768 ≤ int16OfBytes b0 b1 ∧ int16OfBytes b0 b1 ≤ 32767 := by
  unfold int16OfBytes
  dsimp only
  split <;> omega

lemma bytesOfInt16_int16OfBytes (b0 b1 : ℕ) (h0 : b0 < 256) (h1 : b1 < 256) :
    bytesOfInt16 (int16OfBytes b0 b1) = [b0, b1] := by
  unfold bytesOfInt16 int16OfBytes
  dsimp only
  split <;> simp only [List.cons.injEq, and_true] <;> omega

lemma bytesToInt16s_spec (zs : List ℤ) : ∀ (b : List ℕ),
    (∀ x ∈ b, x < 256) → bytesToInt16s b = some zs →
    (∀ z ∈ zs, -32768 ≤ z ∧ z ≤ 32767) ∧ zs.flatMap bytesOfInt16 = b := by
  induction zs with
  | nil =>
    intro b hb h
    cases b with
    | nil => simp
    | cons b0 btail =>
      cases btail with
      | nil => simp [bytesToInt16s] at h
      | cons b1 rest => simp [bytesToInt16s] at h
  | cons z ztail ih =>
    intro b hb h
    cases b with
    | nil => simp [bytesToInt16s] at h
    | cons b0 btail =>
      cases btail with
      | nil => simp [bytesToInt16s] at h
      | cons b1 rest =>
        rw [show bytesToInt16s (b0 :: b1 :: rest)
            = (bytesToInt16s rest).map (fun zs => int16OfBytes b0 b1 :: zs) from rfl,
          Option.map_eq_some'] at h
        obtain ⟨zs', hrest, heq⟩ := h
        have hz : z = int16OfBytes b0 b1 := (List.cons.injEq _ _ _ _ ▸ heq).1.symm
        have hzs : zs' = ztail := (List.cons.injEq _ _ _ _ ▸ heq).2
        subst hzs
        have hb0 : b0 < 256 := hb b0 (by simp)
        have hb1 : b1 < 256 := hb b1 (by simp)
        obtain ⟨hrange, hflat⟩ := ih rest (fun x hx => hb x (by simp [hx])) hrest
        constructor
        · intro w hw
          rcases List.mem_cons.mp hw with hw | hw
          · subst hw; rw [hz]; exact int16OfBytes_range b0 b1 hb0 hb1
          · exact hrange w hw
        · rw [List.flatMap_cons, hflat, hz, bytesOfInt16_int16OfBytes b0 b1 hb0 hb1]
          rfl

lemma encode_sample_roundtrip (z : ℤ) (h1 : -32768 ≤ z) (h2 : z ≤ 32767) :
    wrap16 (truncToZero ((z : ℚ) / (MAX_AMPLITUDE : ℚ) * (MAX_AMPLITUDE : ℚ))) = z := by
  have hM : ((MAX_AMPLITUDE : ℤ) : ℚ) ≠ 0 := by norm_num [MAX_AMPLITUDE]
  rw [div_mul_cancel₀ _ hM]
  have ht : truncToZero ((z : ℚ)) = z := by
    unfold truncToZero
    split
    · exact Int.floor_intCast z
    · rw [← Int.cast_neg, Int.floor_intCast]; ring
  rw [ht]
  unfold wrap16
  omega

/-- C7: for every byte string accepted by decode (length a multiple of the
2-byte sample size) whose bytes are in range, re-encoding the decoded vector
reproduces the bytes exactly; no decoded value clips on encode because every
int16 value times 1/32767 times 32767 is the value itself. -/
theorem encode_decode_roundtrip (b : List ℕ) (v : List ℚ)
    (hb : ∀ x ∈ b, x < 256) (h : decode b = some v) :
    encode v = b := by
  unfold decode at h
  rw [Option.map_eq_some'] at h
  obtain ⟨zs, hzs, rfl⟩ := h
  obtain ⟨hrange, hflat⟩ := bytesToInt16s_spec zs b hb hzs
  unfold encode
  rw [List.map_map]
  have hmap : zs.map ((fun q => wrap16 (truncToZero (q * (MAX_AMPLITUDE : ℚ)))) ∘
      (fun (z : ℤ) => (z : ℚ) / (MAX_AMPLITUDE : ℚ))) = zs.map id :=
    List.map_congr_left (fun z hz => by
      obtain ⟨hz1, hz2⟩ := hrange z hz
      simpa using encode_sample_roundtrip z hz1 hz2)
  rw [hmap, List.map_id, hflat]

/-- Witness for C7 on the wire bytes 0x01 0x00 0xFF 0xFF. -/
theorem encode_decode_roundtrip_witness :
    decode [1, 0, 255, 255] = some [(1 : ℚ)/32767, -(1 : ℚ)/32767] ∧
    encode [(1 : ℚ)/32767, -(1 : ℚ)/32767] = [1, 0, 255, 255] := by
  have hd : decode [1, 0, 255, 255] = some [(1 : ℚ)/32767, -(1 : ℚ)/32767] := by
    norm_num [decode, bytesToInt16s, int16OfBytes, MAX_AMPLITUDE]
  exact ⟨hd, encode_decode_roundtrip _ _ (by decide) hd⟩

/-- A small configuration with LATENCY_SAMPLES = 1 (the field the default
config zeroes out), under which the non-gated path runs to completion:
FILTER_LENGTH = 2, LATENCY_SAMPLES = 1, MU = 0.0005. -/
noncomputable def cfgA : Config := { filter_length := 2, latency_samples := 1, mu := 5 / 10000 }

/-- The initial filter state for cfgA. -/
noncomputable def sA : ANCState :=
  { w := [0, 0], x_buffer := [0, 0, 0], error_history := [], packet_count := 0 }

lemma not_gated_A : ¬ gatedInput [(1 : ℝ), 1] [(2 : ℝ), -2] := by
  unfold gatedInput
  push_neg
  constructor
  · simp only [List.map_cons, List.map_nil, npMean, List.sum_cons, List.sum_nil,
      List.length_cons, List.length_nil, abs_one]
    norm_num [signal_threshold]
  · simp only [List.map_cons, List.map_nil, npMean, List.sum_cons, List.sum_nil,
      List.length_cons, List.length_nil, abs_two, abs_neg]
    norm_num [signal_threshold]

lemma processChunk_cfgA_run :
    processChunk cfgA sA [1, 1] [2, -2]
      = ({ w := [0, 0], x_buffer := [0, 0, 0], error_history := [Real.tanh 1 ^ 2],
           packet_count := 1 }, .ok [Real.tanh 1, -Real.tanh 1]) := by
  unfold processChunk
  rw [if_neg not_gated_A]
  unfold processActive
  norm_num [cfgA, sA, npMean, npRollLeft, setTail, xDelayed, sliceDropLast, sliceTakeLast,
    npDot, npBinop, clip1, npMaxAbs, truncHistory, window_size,
    max_adaptation_rate, leakage, max_update, max_weight,
    Real.tanh_neg, abs_two, abs_neg, abs_one, min_def, max_def, neg_sq,
    List.foldr_cons, List.foldr_nil]

/-- C6 counterexample: at cfgA from state sA with x_ref = [1,1] and
d_error = [2,-2], the error after peak scaling is [1,-1], so the claim
predicts the appended telemetry value mean(e^2) = 1; the code instead appends
mean(tanh(e)^2) = tanh(1)^2, which is not 1 (the append happens after the
line e = np.tanh(e) rebinds e). -/
theorem error_history_append_not_pre_tanh :
    (processChunk cfgA sA [1, 1] [2, -2]).1.error_history = [Real.tanh 1 ^ 2] ∧
    Real.tanh 1 ^ 2 ≠ 1 := by
  constructor
  · rw [processChunk_cfgA_run]
  · have h := tanh_mem_unit 1
    have hlt : Real.tanh 1 ^ 2 < 1 := by nlinarith [h.1, h.2]
    exact ne_of_lt hlt

/-- C6 amended: on every non-gated call that runs to completion, the value
appended to error_history is mean(e^2) measured after the peak scaling and
after the tanh soft limiter, i.e. the mean square of the returned vector. -/
theorem appended_error_metric_is_post_tanh (cfg : Config) (s sNew : ANCState)
    (x_ref d_error out : Vec) (hg : ¬ gatedInput x_ref d_error)
    (h : processChunk cfg s x_ref d_error = (sNew, .ok out)) :
    sNew.error_history
      = truncHistory (s.error_history ++ [npMean (out.map (fun t => t ^ 2))]) := by
  unfold processChunk at h
  rw [if_neg hg] at h
  unfold processActive at h
  dsimp only at h
  split at h
  · simp at h
  · split at h
    · simp at h
    · split at h
      · simp at h
      · split at h
        · simp at h
        · rw [Prod.mk.injEq] at h
          obtain ⟨hs, hout⟩ := h
          rw [Except.ok.injEq] at hout
          subst hout
          subst hs
          rfl

/-- Witness for the amended C6 at the concrete run of cfgA. -/
theorem appended_error_metric_is_post_tanh_witness :
    ¬ gatedInput [(1 : ℝ), 1] [(2 : ℝ), -2] ∧
    ({ w := [0, 0], x_buffer := [0, 0, 0], error_history := [Real.tanh 1 ^ 2],
       packet_count := 1 } : ANCState).error_history
      = truncHistory (sA.error_history
          ++ [npMean (([Real.tanh 1, -Real.tanh 1] : Vec).map (fun t => t ^ 2))]) :=
  ⟨not_gated_A,
    appended_error_metric_is_post_tanh cfgA sA _ _ _ _ not_gated_A processChunk_cfgA_run⟩

/-- C8 counterexample: a reference chunk of length 2 and an error chunk of
length 3 are processed without any abort: the call returns normally with a
zero vector shaped to the error chunk (the gate fires first; no shape check
exists anywhere in process_chunk). -/
theorem mismatched_lengths_processed_without_abort :
    ([(0 : ℝ), 0]).length ≠ ([(0 : ℝ), 0, 0]).length ∧
    processChunk defaultConfig (initState defaultConfig) [(0 : ℝ), 0] [(0 : ℝ), 0, 0]
      = (initState defaultConfig, .ok [0, 0, 0]) := by
  constructor
  · simp
  · have hg : gatedInput [(0 : ℝ), 0] [(0 : ℝ), 0, 0] := by
      unfold gatedInput
      left
      norm_num [npMean, signal_threshold]
    unfold processChunk
    rw [if_pos hg]
    rfl

/-- C8 amended: process_chunk has no input-shape check and does not abort on
inconsistent chunk lengths; a weak-signal mismatched pair is silently gated,
returning a zero vector of the error chunk's length with the state untouched
(and on_message catches and logs any exception an active mismatched pair
provokes further down, so no abort happens there either). -/
theorem mismatched_gated_call_continues (cfg : Config) (s : ANCState)
    (x_ref d_error : Vec) (hlen : x_ref.length ≠ d_error.length)
    (hg : gatedInput x_ref d_error) :
    processChunk cfg s x_ref d_error = (s, .ok (List.replicate d_error.length 0)) := by
  unfold processChunk
  rw [if_pos hg]

/-- Witness for the amended C8 on a concrete mismatched pair. -/
theorem mismatched_gated_call_continues_witness :
    ([(0 : ℝ)]).length ≠ ([(3 : ℝ), 3]).length ∧
    gatedInput [(0 : ℝ)] [(3 : ℝ), 3] ∧
    processChunk defaultConfig (initState defaultConfig) [(0 : ℝ)] [(3 : ℝ), 3]
      = (initState defaultConfig, .ok (List.replicate 2 0)) := by
  have hg : gatedInput [(0 : ℝ)] [(3 : ℝ), 3] := by
    unfold gatedInput
    left
    norm_num [npMean, signal_threshold]
  exact ⟨by simp, hg,
    mismatched_gated_call_continues defaultConfig (initState defaultConfig) _ _ (by simp) hg⟩

end ESP32
